import Mathlib

/-!
# Verification of the AskAussie RAG chat route

Shallow embedding of the retrieval-augmented-generation pipeline of the
AskAussie repository (the `/api/chat` route and its client page), together
with proofs of the behavioural properties stated in its specification.

The embedded code is the streaming chat route (the variant whose request body
carries `messages`, which is the one the chat page actually calls, and whose
response is the line-delimited data stream the page parses), plus the abort
path of the client page's `sendMessage`/`stopStreaming`.

Modelling conventions:
* JavaScript numbers are modelled as rationals (`ℚ`).  `Math.sqrt` is an
  opaque external library function, so it enters the embedding as an explicit
  function parameter `sqrtFn : ℚ → ℚ`; the few facts a theorem needs about it
  (e.g. `sqrtFn 0 = 0`, or exactness on a perfect square) appear as
  hypotheses, which is the rational-arithmetic rendering of the spec's
  "within floating tolerance".
* The remote embedding call (`getQueryEmbedding`) catches its own errors and
  returns `[]` on failure, so its outcome is modelled as an input
  `embedResult : List ℚ` with `[]` standing for a failed call.
* The corpus file read plus `JSON.parse` is modelled as an input
  `readResult : Except Unit (List ConstitutionSection)`; `.error` is the
  catch path (missing or malformed artifact).
* The module-level mutable cache `constitutionData` is modelled by explicit
  state passing: functions take the cache and return the updated cache.
-/

/-- One corpus record, embedding the TypeScript interface
`ConstitutionSection` (fields `section?`, `chapter?`, `part?`, `content?`,
`embedding?`).  The `section` field is named `sectionLabel` because `section`
is a Lean keyword. -/
structure ConstitutionSection where
  sectionLabel : Option String
  chapter : Option String
  part : Option String
  content : Option String
  embedding : Option (List ℚ)
deriving DecidableEq, Repr

/-- Embeds `ConstitutionSectionWithSimilarity extends ConstitutionSection`
(the spec's `ScoredSection`). -/
structure ScoredSection extends ConstitutionSection where
  similarity : ℚ
deriving DecidableEq, Repr

/-- `a.reduce((sum, val) => sum + val * val, 0)` — the squared magnitude that
feeds `Math.sqrt` in `cosineSimilarity`. -/
def sumSq (v : List ℚ) : ℚ :=
  v.foldl (fun s x => s + x * x) 0

/-- `a.reduce((sum, val, i) => sum + val * b[i], 0)`.  The route only
evaluates this after checking `a.length === b.length`, where index access
`b[i]` is total, so the pointwise pairing is `zipWith`. -/
def dotList (a b : List ℚ) : ℚ :=
  (List.zipWith (fun x y => x * y) a b).foldl (fun s x => s + x) 0

/-- Embeds `cosineSimilarity(a, b)` from the route:
mismatched lengths return `0`; a zero magnitude (`Math.sqrt` of the squared
magnitude) returns `0`; otherwise the dot product divided by the product of
the magnitudes.  `sqrtFn` stands for `Math.sqrt`.  The JS guard `!a || !b`
(null vectors) has no counterpart because Lean lists cannot be null. -/
def cosineSimilarity (sqrtFn : ℚ → ℚ) (a b : List ℚ) : ℚ :=
  if a.length ≠ b.length then 0
  else
    let dotProduct := dotList a b
    let magnitudeA := sqrtFn (sumSq a)
    let magnitudeB := sqrtFn (sumSq b)
    if magnitudeA = 0 ∨ magnitudeB = 0 then 0
    else dotProduct / (magnitudeA * magnitudeB)

/-- Inserts `x` into a list already sorted by descending `key`, placing `x`
before the first element whose key it meets or exceeds.  Folding this over
the input (`sortDesc`) realises the ES2019-stable
`sort((a, b) => b.similarity - a.similarity)` of the route: descending by
key, ties kept in input order. -/
def insertDesc {α : Type} (key : α → ℚ) (x : α) : List α → List α
  | [] => [x]
  | y :: ys => if key y ≤ key x then x :: y :: ys else y :: insertDesc key x ys

/-- Stable descending sort by `key` (see `insertDesc`). -/
def sortDesc {α : Type} (key : α → ℚ) (l : List α) : List α :=
  l.foldr (insertDesc key) []

/-- Pairs every element with its position in the list, starting at `n`. -/
def withIdxFrom {α : Type} (n : Nat) : List α → List (α × Nat)
  | [] => []
  | x :: xs => (x, n) :: withIdxFrom (n + 1) xs

/-- Pairs every element with its position in the list. -/
def withIdx {α : Type} (l : List α) : List (α × Nat) :=
  withIdxFrom 0 l

/-- The filter `!!section.embedding && section.embedding.length > 0` that
keeps only sections eligible for scoring. -/
def hasEmbedding (s : ConstitutionSection) : Bool :=
  match s.embedding with
  | some e => !e.isEmpty
  | none => false

/-- The `.filter(...).map(...)` stage of `findRelevantSections`: every
eligible section paired with its cosine similarity to the query vector. -/
def scoredSections (sqrtFn : ℚ → ℚ) (queryEmbedding : List ℚ)
    (allSections : List ConstitutionSection) : List ScoredSection :=
  (allSections.filter hasEmbedding).map fun s =>
    { toConstitutionSection := s
      similarity := cosineSimilarity sqrtFn queryEmbedding (s.embedding.getD []) }

/-- The scoring stage of `findRelevantSections` (the spec's
`rank(queryVector, sections, K)`): score the eligible sections, stable-sort
them by descending similarity, take the first `K`. -/
def rank (sqrtFn : ℚ → ℚ) (queryEmbedding : List ℚ)
    (allSections : List ConstitutionSection) (topK : Nat) : List ScoredSection :=
  (sortDesc (fun s => s.similarity) (scoredSections sqrtFn queryEmbedding allSections)).take topK

/-- `topK` defaults to 3 in `findRelevantSections(query, topK = 3)`; `POST`
calls it without an override. -/
def topKDefault : Nat := 3

/-- Embeds `loadConstitutionEmbeddings` of the route with the module-level
mutable cache `constitutionData : ConstitutionSection[] | null` made an
explicit argument and result.  A cached value (a JS array, truthy even when
empty) is returned as is; otherwise the artifact read result is consulted:
a successful parse is cached and returned, and the catch path (missing or
malformed artifact) returns `[]` and leaves the cache empty.  Per spec §6
the artifact is a JSON array of records, so a successful parse carries a
`List ConstitutionSection`. -/
def loadConstitutionEmbeddings (cache : Option (List ConstitutionSection))
    (readResult : Except Unit (List ConstitutionSection)) :
    List ConstitutionSection × Option (List ConstitutionSection) :=
  match cache with
  | some data => (data, some data)
  | none =>
    match readResult with
    | .ok data => (data, some data)
    | .error _ => ([], none)

/-- The early-return guard `!allSections.length || !allSections[0]?.embedding`
of `findRelevantSections`.  In JS an empty `embedding` array is truthy, so
only a missing `embedding` on the first section (or an empty corpus) trips
the guard; hence `Option.isNone`. -/
def corpusGuard (allSections : List ConstitutionSection) : Bool :=
  allSections.isEmpty ||
    (match allSections.head? with
     | some s => s.embedding.isNone
     | none => true)

/-- Embeds `findRelevantSections(query, topK)`: load the corpus (threading
the cache), return `[]` when the corpus guard fires or when the query
embedding failed (empty vector), otherwise rank the corpus against the query
vector.  `embedResult` stands for the outcome of `getQueryEmbedding(query)`,
which returns `[]` on failure. -/
def findRelevantSections (sqrtFn : ℚ → ℚ) (cache : Option (List ConstitutionSection))
    (readResult : Except Unit (List ConstitutionSection)) (embedResult : List ℚ)
    (topK : Nat) : List ScoredSection × Option (List ConstitutionSection) :=
  let loaded := loadConstitutionEmbeddings cache readResult
  if corpusGuard loaded.1 then ([], loaded.2)
  else if embedResult.isEmpty then ([], loaded.2)
  else (rank sqrtFn embedResult loaded.1 topK, loaded.2)

/-- `.replace(/[^\x00-\x7F]/g, '')` — strips every character whose code
point exceeds 127.  (A JS string holds UTF-16 code units and the regex
removes offending units one by one; for a character beyond the BMP both
surrogates exceed 0x7F, so filtering scalar values yields the same
string.) -/
def sanitizeASCII (s : String) : String :=
  String.mk (s.toList.filter (fun c => c.toNat ≤ 127))

/-- JS truthiness of an optional string field (`filter(Boolean)`, `if
(section.section)`): absent and empty strings are falsy. -/
def optTruthy (o : Option String) : Bool :=
  match o with
  | some s => s != ""
  | none => false

/-- `Array.prototype.join(sep)`: elements concatenated with `sep` between
consecutive elements, `""` on the empty array. -/
def joinWith (sep : String) : List String → String
  | [] => ""
  | [x] => x
  | x :: xs => x ++ sep ++ joinWith sep xs

/-- The header value: `relevantSections.map(s => s.section).filter(Boolean)
.map(s => String(s).replace(/[^\x00-\x7F]/g, '')).join(', ')`. -/
def sectionNumbersOf (sections : List ScoredSection) : String :=
  joinWith ", "
    (((sections.map (fun s => s.sectionLabel)).filter optTruthy).map
      (fun o => sanitizeASCII (o.getD "")))

/-- One conditional `parts.push(label + value)` of the context builder. -/
def pushIf (label : String) (v : Option String) : List String :=
  match v with
  | some s => if s = "" then [] else [label ++ s]
  | none => []

/-- The per-section serialization of the context builder: the present,
non-empty labels and the content, joined by newlines. -/
def renderSection (s : ScoredSection) : String :=
  joinWith "\n"
    (pushIf "Section: " s.sectionLabel ++ pushIf "Chapter: " s.chapter ++
      pushIf "Part: " s.part ++ pushIf "Content: " s.content)

/-- The `context` string of `POST`: serialized sections joined by the
delimiter `"\n\n---\n\n"`. -/
def contextOf (sections : List ScoredSection) : String :=
  joinWith "\n\n---\n\n" (sections.map renderSection)

/-- The fixed instruction text of the system prompt, up to and including
`"Relevant constitutional sections for this query: "`. -/
def promptPrefix : String :=
  "You are AskAussie, an expert AI assistant specializing in the Australian Constitution. You help users understand the Commonwealth of Australia Constitution Act.\nYour role is to:\n1. Provide accurate information about the Australian Constitution\n2. Explain constitutional concepts clearly and accessibly\n3. Reference specific sections when relevant\n4. Help users understand constitutional rights and government structure\n5. Maintain a professional but friendly tone\nGuidelines:\n- Always base responses on actual constitutional text when possible\n- Cite specific sections when relevant (e.g., \"Section 51 of the Constitution...\")\n- Explain legal concepts in plain English\n- If unsure about something, acknowledge limitations\n- Focus specifically on the Australian Constitution\n- Be helpful for citizens, students, and legal professionals\nRelevant constitutional sections for this query: "

/-- The closing sentence of the system prompt template. -/
def promptSuffix : String :=
  "Please provide a helpful, accurate response based on constitutional knowledge, and cite the relevant section numbers in your answer."

/-- The system prompt template of `POST`: fixed instructions, the
interpolated `sectionNumbers`, the `context ? `Details:...` : ''` block, and
the closing sentence. -/
def systemPromptOf (sectionNumbers context : String) : String :=
  promptPrefix ++ sectionNumbers ++ "\n" ++
    (if context ≠ "" then "Details:\n" ++ context else "") ++ "\n" ++ promptSuffix

/-- One message of the request body's `messages` array.  `content` is
optional to model a record without that property. -/
structure RouteMessage where
  role : String
  content : Option String
deriving DecidableEq, Repr

/-- `messages[messages.length - 1]?.content`. -/
def latestMessageContent (messages : List RouteMessage) : Option String :=
  messages.getLast?.bind (fun m => m.content)

/-- The 400 body `{ error: 'No message provided' }`. -/
def noMessageError : String := "No message provided"

/-- The 500 body returned when `process.env.OPENAI_API_KEY` is unset. -/
def keyMissingError : String :=
  "OpenAI API key not configured. Please check your .env.local file."

/-- Outcome of `POST`: either a `NextResponse.json` error with its HTTP
status, or the streamed completion, recorded by the message list handed to
`streamText` and the `x-relevant-sections` header value. -/
inductive PostResult where
  | json (status : Nat) (error : String)
  | stream (conversationMessages : List RouteMessage) (relevantSectionsHeader : String)
deriving DecidableEq, Repr

/-- `[{ role: "system", content: systemPrompt }, ...messages]` — the prompt
builder prepends one system message and re-adds nothing. -/
def conversationMessagesOf (systemPrompt : String) (messages : List RouteMessage) :
    List RouteMessage :=
  { role := "system", content := some systemPrompt } :: messages

/-- Embeds the `POST` handler of the chat route: validate the latest
message (absent or empty content is falsy), check the API key, retrieve,
build the context, header string and system prompt, and stream.
`apiKeyConfigured` stands for `!!process.env.OPENAI_API_KEY`. -/
def POST (sqrtFn : ℚ → ℚ) (apiKeyConfigured : Bool)
    (cache : Option (List ConstitutionSection))
    (readResult : Except Unit (List ConstitutionSection)) (embedResult : List ℚ)
    (messages : List RouteMessage) : PostResult :=
  match latestMessageContent messages with
  | none => .json 400 noMessageError
  | some latestMessage =>
    if latestMessage = "" then .json 400 noMessageError
    else if !apiKeyConfigured then .json 500 keyMissingError
    else
      let relevantSections := (findRelevantSections sqrtFn cache readResult embedResult topKDefault).1
      .stream
        (conversationMessagesOf
          (systemPromptOf (sectionNumbersOf relevantSections) (contextOf relevantSections))
          messages)
        (sectionNumbersOf relevantSections)

/-- One message of the client page's `Message` interface.  The `timestamp`
field (a `Date`) carries no logic the claims touch and is not modelled. -/
structure ClientMessage where
  id : String
  content : String
  role : String
deriving DecidableEq, Repr

/-- One conversation of the client page's `Chat` interface (`createdAt` and
`updatedAt`, both `Date`s, are not modelled). -/
structure Chat where
  id : String
  title : String
  messages : List ClientMessage
deriving DecidableEq, Repr

/-- `message.slice(0, 50) + (message.length > 50 ? '...' : '')` — the chat
title derived from the first message. -/
def titleFor (text : String) : String :=
  text.take 50 ++ (if text.length > 50 then "..." else "")

/-- The user-message step of `sendMessage`: the user message is appended to
the target chat, whose title is updated when this is its first message; the
result is what `saveChats` persists before streaming starts. -/
def appendUserMessage (chats0 : List Chat) (targetChatId : String)
    (userMessage : ClientMessage) (text : String) : List Chat :=
  chats0.map fun chat =>
    if chat.id = targetChatId then
      { chat with
        messages := chat.messages ++ [userMessage]
        title := if chat.messages.isEmpty then titleFor text else chat.title }
    else chat

/-- One line of the stream-read loop: a line starting with `0:` has its
JSON string payload appended to `fullResponse`; a payload that fails to
parse is logged and skipped; other tags are ignored.  `decodeJSONString`
stands for `JSON.parse` applied to the payload of a `0:` line. -/
def processLine (decodeJSONString : String → Option String) (acc line : String) : String :=
  if line.startsWith "0:" then
    match decodeJSONString (line.drop 2) with
    | some textChunk => acc ++ textChunk
    | none => acc
  else acc

/-- `fullResponse` after folding the stream-read loop over a list of
complete lines. -/
def fullResponseAfter (decodeJSONString : String → Option String)
    (lines : List String) : String :=
  lines.foldl (processLine decodeJSONString) ""

/-- The optimistic placeholder step of `sendMessage`: an empty assistant
message with the pending id is appended to the target chat. -/
def addPlaceholder (chats : List Chat) (targetChatId pendingId : String) : List Chat :=
  chats.map fun chat =>
    if chat.id = targetChatId then
      { chat with
        messages := chat.messages ++ [{ id := pendingId, content := "", role := "assistant" }] }
    else chat

/-- The per-chunk update of `sendMessage`: the message carrying the pending
id has its content replaced by the accumulated `fullResponse`. -/
def updateAssistantContent (chats : List Chat) (targetChatId pendingId newContent : String) :
    List Chat :=
  chats.map fun chat =>
    if chat.id = targetChatId then
      { chat with
        messages := chat.messages.map fun m =>
          if m.id = pendingId then { m with content := newContent } else m }
    else chat

/-- The `AbortError` handler of `sendMessage` (shared with `stopStreaming`'s
effect): the in-progress assistant message is filtered out of the target
chat and the result is persisted. -/
def removePendingAssistant (chats : List Chat) (targetChatId pendingId : String) : List Chat :=
  chats.map fun chat =>
    if chat.id = targetChatId then
      { chat with messages := chat.messages.filter fun m => m.id != pendingId }
    else chat

/-- The whole abort scenario, starting from the persisted state `chats1`
(user message already saved): add the placeholder, process the `k` lines
delivered before the abort, then run the abort handler.  Returns the
persisted history. -/
def runAborted (decodeJSONString : String → Option String) (chats1 : List Chat)
    (targetChatId pendingId : String) (lines : List String) (k : Nat) : List Chat :=
  removePendingAssistant
    (updateAssistantContent (addPlaceholder chats1 targetChatId pendingId)
      targetChatId pendingId (fullResponseAfter decodeJSONString (lines.take k)))
    targetChatId pendingId

/-- Strict "descending similarity, ties by input position" order: exactly
the order in which the ES2019-stable `sort` with comparator
`(a, b) => b.similarity - a.similarity` lays out distinct positions. -/
def descLex {α : Type} (key : α → ℚ) (idx : α → Nat) (a b : α) : Prop :=
  key b < key a ∨ (key a = key b ∧ idx a < idx b)

/-- A concrete square root used by witnesses, exact on the squared
magnitudes `0` and `1` that the witnesses' vectors produce. -/
def sqrtDemo : ℚ → ℚ :=
  fun q => if q = 0 then 0 else 1

theorem insertDesc_perm {α : Type} (key : α → ℚ) (x : α) (l : List α) :
    (insertDesc key x l).Perm (x :: l) := by
  induction l with
  | nil => simp [insertDesc]
  | cons y ys ih =>
    by_cases h : key y ≤ key x
    · simp [insertDesc, h]
    · simp only [insertDesc, if_neg h]
      exact (ih.cons y).trans (List.Perm.swap x y ys)

theorem sortDesc_perm {α : Type} (key : α → ℚ) (l : List α) :
    (sortDesc key l).Perm l := by
  induction l with
  | nil => simp [sortDesc]
  | cons x xs ih =>
    have hs : sortDesc key (x :: xs) = insertDesc key x (sortDesc key xs) := rfl
    rw [hs]
    exact (insertDesc_perm key x (sortDesc key xs)).trans (ih.cons x)

theorem mem_insertDesc {α : Type} (key : α → ℚ) (x a : α) (l : List α) :
    a ∈ insertDesc key x l ↔ a = x ∨ a ∈ l := by
  rw [(insertDesc_perm key x l).mem_iff, List.mem_cons]

theorem mem_sortDesc {α : Type} (key : α → ℚ) (a : α) (l : List α) :
    a ∈ sortDesc key l ↔ a ∈ l :=
  (sortDesc_perm key l).mem_iff

theorem insertDesc_pairwise_descLex {α : Type} (key : α → ℚ) (idx : α → Nat)
    (x : α) (l : List α) (hl : l.Pairwise (descLex key idx))
    (hidx : ∀ y ∈ l, idx x < idx y) :
    (insertDesc key x l).Pairwise (descLex key idx) := by
  induction l with
  | nil => simp [insertDesc]
  | cons y ys ih =>
    rcases List.pairwise_cons.mp hl with ⟨hy, hys⟩
    by_cases h : key y ≤ key x
    · simp only [insertDesc, if_pos h]
      refine List.pairwise_cons.mpr ⟨?_, hl⟩
      intro z hz
      rcases List.mem_cons.mp hz with rfl | hz'
      · rcases lt_or_eq_of_le h with hlt | heq
        · exact Or.inl hlt
        · exact Or.inr ⟨heq.symm, hidx z (List.mem_cons_self z ys)⟩
      · have hzy : key z ≤ key y := by
          rcases hy z hz' with hlt | ⟨heq, _⟩
          · exact le_of_lt hlt
          · exact le_of_eq heq.symm
        rcases lt_or_eq_of_le (le_trans hzy h) with hlt | heq
        · exact Or.inl hlt
        · exact Or.inr ⟨heq.symm, hidx z (List.mem_cons_of_mem y hz')⟩
    · simp only [insertDesc, if_neg h]
      push_neg at h
      refine List.pairwise_cons.mpr ⟨?_, ih hys ?_⟩
      · intro z hz
        rcases (mem_insertDesc key x z ys).mp hz with rfl | hz'
        · exact Or.inl h
        · exact hy z hz'
      · intro z hz
        exact hidx z (List.mem_cons_of_mem y hz)

theorem sortDesc_pairwise_descLex {α : Type} (key : α → ℚ) (idx : α → Nat)
    (l : List α) (hidx : l.Pairwise (fun a b => idx a < idx b)) :
    (sortDesc key l).Pairwise (descLex key idx) := by
  induction l with
  | nil => simp [sortDesc]
  | cons x xs ih =>
    rcases List.pairwise_cons.mp hidx with ⟨hx, hxs⟩
    have hs : sortDesc key (x :: xs) = insertDesc key x (sortDesc key xs) := rfl
    rw [hs]
    refine insertDesc_pairwise_descLex key idx x _ (ih hxs) ?_
    intro y hy
    exact hx y ((mem_sortDesc key y xs).mp hy)

theorem withIdxFrom_map_fst {α : Type} (n : Nat) (l : List α) :
    (withIdxFrom n l).map Prod.fst = l := by
  induction l generalizing n with
  | nil => simp [withIdxFrom]
  | cons x xs ih => simp [withIdxFrom, ih]

theorem withIdxFrom_idx_ge {α : Type} (n : Nat) (l : List α) :
    ∀ p ∈ withIdxFrom n l, n ≤ p.2 := by
  induction l generalizing n with
  | nil => simp [withIdxFrom]
  | cons x xs ih =>
    intro p hp
    rcases List.mem_cons.mp hp with rfl | hp'
    · simp
    · exact le_trans (Nat.le_succ n) (ih (n + 1) p hp')

theorem withIdxFrom_pairwise_idx {α : Type} (n : Nat) (l : List α) :
    (withIdxFrom n l).Pairwise (fun a b => a.2 < b.2) := by
  induction l generalizing n with
  | nil => simp [withIdxFrom]
  | cons x xs ih =>
    refine List.pairwise_cons.mpr ⟨?_, ih (n + 1)⟩
    intro p hp
    exact lt_of_lt_of_le (Nat.lt_succ_self n) (withIdxFrom_idx_ge (n + 1) xs p hp)

theorem map_insertDesc {α β : Type} (f : α → β) (keyA : α → ℚ) (keyB : β → ℚ)
    (hkey : ∀ a, keyB (f a) = keyA a) (x : α) (l : List α) :
    (insertDesc keyA x l).map f = insertDesc keyB (f x) (l.map f) := by
  induction l with
  | nil => simp [insertDesc]
  | cons y ys ih =>
    by_cases h : keyA y ≤ keyA x
    · simp [insertDesc, h, hkey]
    · simp [insertDesc, h, hkey, ih]

theorem map_sortDesc {α β : Type} (f : α → β) (keyA : α → ℚ) (keyB : β → ℚ)
    (hkey : ∀ a, keyB (f a) = keyA a) (l : List α) :
    (sortDesc keyA l).map f = sortDesc keyB (l.map f) := by
  induction l with
  | nil => simp [sortDesc]
  | cons x xs ih =>
    have hs : sortDesc keyA (x :: xs) = insertDesc keyA x (sortDesc keyA xs) := rfl
    have hs' : sortDesc keyB (f x :: xs.map f) = insertDesc keyB (f x) (sortDesc keyB (xs.map f)) := rfl
    simp only [List.map_cons, hs, hs', map_insertDesc f keyA keyB hkey, ih]

theorem rank_eq_indexed (sqrtFn : ℚ → ℚ) (q : List ℚ)
    (sections : List ConstitutionSection) (K : Nat) :
    rank sqrtFn q sections K =
      ((sortDesc (fun p : ScoredSection × Nat => p.1.similarity)
        (withIdx (scoredSections sqrtFn q sections))).map Prod.fst).take K := by
  rw [withIdx, map_sortDesc Prod.fst (fun p : ScoredSection × Nat => p.1.similarity)
      (fun s : ScoredSection => s.similarity) (fun a => rfl), withIdxFrom_map_fst]
  rfl

theorem rank_pairwise_le (sqrtFn : ℚ → ℚ) (q : List ℚ)
    (sections : List ConstitutionSection) (K : Nat) :
    (rank sqrtFn q sections K).Pairwise (fun a b => b.similarity ≤ a.similarity) := by
  have hlex := sortDesc_pairwise_descLex (fun p : ScoredSection × Nat => p.1.similarity)
      Prod.snd (withIdx (scoredSections sqrtFn q sections)) (withIdxFrom_pairwise_idx 0 _)
  have hmap := hlex.map Prod.fst
      (S := fun a b : ScoredSection => b.similarity ≤ a.similarity) ?_
  · rw [rank_eq_indexed]
    exact hmap.sublist (List.take_sublist K _)
  · intro a b hab
    rcases hab with hlt | ⟨heq, _⟩
    · exact le_of_lt hlt
    · exact le_of_eq heq.symm

theorem rank_length_le (sqrtFn : ℚ → ℚ) (q : List ℚ)
    (sections : List ConstitutionSection) (K : Nat) :
    (rank sqrtFn q sections K).length ≤ K := by
  unfold rank
  simp [List.length_take_le]

theorem dotList_comm (a b : List ℚ) : dotList a b = dotList b a := by
  unfold dotList
  rw [List.zipWith_comm_of_comm (fun x y => x * y) mul_comm]

theorem dotList_self (a : List ℚ) : dotList a a = sumSq a := by
  unfold dotList sumSq
  rw [List.zipWith_same, List.foldl_map]

/-- **C1.** For every query vector, corpus and `K`, the scoring stage of
`findRelevantSections` returns at most `K` scored sections; its output is
the first `K` entries of the stable descending sort of the scored eligible
sections, and that sorted list is strictly descending in the lexicographic
(similarity descending, input position ascending) order — i.e. sorted
descending by similarity with ties broken by stable input order; the output
itself is pairwise non-increasing in similarity; and the function is
idempotent: a second call on identical inputs yields the identical output
(it is a pure function of its inputs). -/
theorem rank_topK_sorted_stable_idempotent (sqrtFn : ℚ → ℚ) (q : List ℚ)
    (sections : List ConstitutionSection) (K : Nat) :
    (rank sqrtFn q sections K).length ≤ K ∧
    rank sqrtFn q sections K =
      ((sortDesc (fun p : ScoredSection × Nat => p.1.similarity)
        (withIdx (scoredSections sqrtFn q sections))).map Prod.fst).take K ∧
    (sortDesc (fun p : ScoredSection × Nat => p.1.similarity)
        (withIdx (scoredSections sqrtFn q sections))).Pairwise
      (descLex (fun p : ScoredSection × Nat => p.1.similarity) Prod.snd) ∧
    (rank sqrtFn q sections K).Pairwise (fun a b => b.similarity ≤ a.similarity) ∧
    rank sqrtFn q sections K = rank sqrtFn q sections K :=
  ⟨rank_length_le sqrtFn q sections K,
    rank_eq_indexed sqrtFn q sections K,
    sortDesc_pairwise_descLex _ Prod.snd _ (withIdxFrom_pairwise_idx 0 _),
    rank_pairwise_le sqrtFn q sections K,
    rfl⟩

/-- **C2.** `cosineSimilarity` is a total function (the embedding returns a
rational on every input, mirroring that the source never throws), and in
every degenerate case — mismatched lengths, a zero magnitude as computed by
the code (`Math.sqrt` of the squared magnitude equal to `0`), or a
mathematically zero-magnitude vector under `sqrt 0 = 0` — it returns
exactly `0`: the guards select the constant-`0` branches, so the division
by the magnitude product is never the branch that produces the result. -/
theorem cosineSimilarity_degenerate_zero (sqrtFn : ℚ → ℚ) (a b : List ℚ)
    (h : a.length ≠ b.length ∨ sqrtFn (sumSq a) = 0 ∨ sqrtFn (sumSq b) = 0 ∨
      (sqrtFn 0 = 0 ∧ (sumSq a = 0 ∨ sumSq b = 0))) :
    cosineSimilarity sqrtFn a b = 0 := by
  rcases h with h | h | h | ⟨h0, hz | hz⟩ <;>
    simp [cosineSimilarity, *]

/-- Witness for `cosineSimilarity_degenerate_zero`: the zero vector
`[0, 0]` against `[1, 0]` yields exactly `0`. -/
theorem cosineSimilarity_degenerate_zero_witness :
    (([0, 0] : List ℚ).length ≠ ([1, 0] : List ℚ).length ∨
      sqrtDemo (sumSq [0, 0]) = 0 ∨ sqrtDemo (sumSq [1, 0]) = 0 ∨
      (sqrtDemo 0 = 0 ∧ (sumSq ([0, 0] : List ℚ) = 0 ∨ sumSq ([1, 0] : List ℚ) = 0))) ∧
    cosineSimilarity sqrtDemo [0, 0] [1, 0] = 0 :=
  ⟨Or.inr (Or.inl (by simp [sumSq, sqrtDemo])),
    cosineSimilarity_degenerate_zero sqrtDemo [0, 0] [1, 0]
      (Or.inr (Or.inl (by simp [sumSq, sqrtDemo])))⟩

/-- **C8.** For vectors of equal nonzero length, `cosineSimilarity` is
symmetric — unconditionally in `sqrtFn`, since the guards and both the dot
product and the magnitude product are symmetric whatever `Math.sqrt`
returns; and `cosineSimilarity(a, a) = 1` whenever `sqrtFn` squares back to
the squared magnitude and is nonzero there — the exact-arithmetic rendering
of `Math.sqrt` on a nonzero vector ("within floating tolerance" in the
spec), attached only to this conjunct. -/
theorem cosineSimilarity_symm_self (sqrtFn : ℚ → ℚ) (a b : List ℚ)
    (hab : a.length = b.length) (_hne : a ≠ []) :
    cosineSimilarity sqrtFn a b = cosineSimilarity sqrtFn b a ∧
    (sqrtFn (sumSq a) * sqrtFn (sumSq a) = sumSq a → sqrtFn (sumSq a) ≠ 0 →
      cosineSimilarity sqrtFn a a = 1) := by
  have hunf : ∀ x y : List ℚ, cosineSimilarity sqrtFn x y =
      if x.length ≠ y.length then 0
      else if sqrtFn (sumSq x) = 0 ∨ sqrtFn (sumSq y) = 0 then 0
      else dotList x y / (sqrtFn (sumSq x) * sqrtFn (sumSq y)) := fun x y => rfl
  have h1 : ¬a.length ≠ b.length := by simp [hab]
  have h2 : ¬b.length ≠ a.length := by simp [hab]
  constructor
  · rw [hunf, hunf, if_neg h1, if_neg h2]
    by_cases hz : sqrtFn (sumSq a) = 0 ∨ sqrtFn (sumSq b) = 0
    · rw [if_pos hz, if_pos hz.symm]
    · rw [if_neg hz, if_neg (fun h => hz h.symm), dotList_comm, mul_comm]
  · intro hsq hnz
    have hself : ¬(sqrtFn (sumSq a) = 0 ∨ sqrtFn (sumSq a) = 0) := by
      simp [hnz]
    have hsne : sumSq a ≠ 0 := by
      intro h0
      exact hnz (by simpa [h0, mul_self_eq_zero] using hsq)
    rw [hunf, if_neg (by simp), if_neg hself, dotList_self, hsq]
    exact div_self hsne

/-- Witness for `cosineSimilarity_symm_self` at `a = [1, 0]`, `b = [0, 1]`
with the demo square root (exact there), including the inner implication's
`cosineSimilarity(a, a) = 1` instance. -/
theorem cosineSimilarity_symm_self_witness :
    (([1, 0] : List ℚ).length = ([0, 1] : List ℚ).length ∧ ([1, 0] : List ℚ) ≠ []) ∧
    cosineSimilarity sqrtDemo [1, 0] [0, 1] = cosineSimilarity sqrtDemo [0, 1] [1, 0] ∧
    cosineSimilarity sqrtDemo [1, 0] [1, 0] = 1 :=
  ⟨⟨by simp, by simp⟩,
    (cosineSimilarity_symm_self sqrtDemo [1, 0] [0, 1] (by simp) (by simp)).1,
    (cosineSimilarity_symm_self sqrtDemo [1, 0] [0, 1] (by simp) (by simp)).2
      (by simp [sumSq, sqrtDemo]) (by simp [sumSq, sqrtDemo])⟩

theorem findRelevantSections_snd (sqrtFn : ℚ → ℚ)
    (cache : Option (List ConstitutionSection))
    (readResult : Except Unit (List ConstitutionSection)) (embedResult : List ℚ)
    (topK : Nat) :
    (findRelevantSections sqrtFn cache readResult embedResult topK).2 =
      (loadConstitutionEmbeddings cache readResult).2 := by
  unfold findRelevantSections
  by_cases h1 : corpusGuard (loadConstitutionEmbeddings cache readResult).1
  · simp [h1]
  · by_cases h2 : embedResult.isEmpty <;> simp [h1, h2]

/-- **C9.** The corpus load is memoized and idempotent: with a cached
corpus `d` every call returns `d` and leaves the cache at `d` whatever the
artifact read would produce (the artifact is not re-read); the first
successful load returns the parsed corpus and caches it, after which a
second call again returns exactly `d`; a read failure (missing or malformed
artifact) returns the empty sequence instead of an error; and the retrieval
operation never changes the cache beyond what the load itself did. -/
theorem loadConstitutionEmbeddings_memoized_idempotent
    (d : List ConstitutionSection) (r r2 : Except Unit (List ConstitutionSection))
    (sqrtFn : ℚ → ℚ) (embedResult : List ℚ) (topK : Nat) :
    loadConstitutionEmbeddings (some d) r = (d, some d) ∧
    loadConstitutionEmbeddings none (.ok d) = (d, some d) ∧
    loadConstitutionEmbeddings none (.error ()) = ([], none) ∧
    loadConstitutionEmbeddings (loadConstitutionEmbeddings none (.ok d)).2 r2 = (d, some d) ∧
    (findRelevantSections sqrtFn (some d) r embedResult topK).2 = some d :=
  ⟨rfl, rfl, rfl, rfl, findRelevantSections_snd sqrtFn (some d) r embedResult topK⟩

theorem scoredSections_eq_nil (sqrtFn : ℚ → ℚ) (q : List ℚ)
    (l : List ConstitutionSection)
    (h : ∀ s ∈ l, s.embedding = none ∨ s.embedding = some []) :
    scoredSections sqrtFn q l = [] := by
  unfold scoredSections
  have hf : l.filter hasEmbedding = [] := by
    rw [List.filter_eq_nil_iff]
    intro s hs
    rcases h s hs with he | he <;> simp [hasEmbedding, he]
  rw [hf]
  rfl

theorem rank_eq_nil_of_no_embeddings (sqrtFn : ℚ → ℚ) (q : List ℚ)
    (l : List ConstitutionSection) (K : Nat)
    (h : ∀ s ∈ l, s.embedding = none ∨ s.embedding = some []) :
    rank sqrtFn q l K = [] := by
  unfold rank
  rw [scoredSections_eq_nil sqrtFn q l h]
  simp [sortDesc]

theorem findRelevantSections_empty_of_degenerate (sqrtFn : ℚ → ℚ)
    (cache : Option (List ConstitutionSection))
    (readResult : Except Unit (List ConstitutionSection)) (embedResult : List ℚ)
    (topK : Nat)
    (hdeg : (loadConstitutionEmbeddings cache readResult).1 = [] ∨
      (∀ s ∈ (loadConstitutionEmbeddings cache readResult).1,
        s.embedding = none ∨ s.embedding = some []) ∨
      embedResult = []) :
    (findRelevantSections sqrtFn cache readResult embedResult topK).1 = [] := by
  unfold findRelevantSections
  by_cases h1 : corpusGuard (loadConstitutionEmbeddings cache readResult).1
  · simp [h1]
  · by_cases h2 : embedResult.isEmpty
    · simp [h1, h2]
    · simp only [h1, h2, if_false, ite_false, Bool.false_eq_true]
      rcases hdeg with hd | hd | hd
      · exact absurd (by simp [corpusGuard, hd]) h1
      · exact rank_eq_nil_of_no_embeddings sqrtFn embedResult _ topK hd
      · exact absurd (by simp [hd]) h2

theorem POST_success_eq (sqrtFn : ℚ → ℚ) (cache : Option (List ConstitutionSection))
    (readResult : Except Unit (List ConstitutionSection)) (embedResult : List ℚ)
    (messages : List RouteMessage) (c : String)
    (hmsg : latestMessageContent messages = some c) (hc : c ≠ "") :
    POST sqrtFn true cache readResult embedResult messages =
      .stream
        (conversationMessagesOf
          (systemPromptOf
            (sectionNumbersOf (findRelevantSections sqrtFn cache readResult embedResult topKDefault).1)
            (contextOf (findRelevantSections sqrtFn cache readResult embedResult topKDefault).1))
          messages)
        (sectionNumbersOf (findRelevantSections sqrtFn cache readResult embedResult topKDefault).1) := by
  unfold POST
  rw [hmsg]
  simp [hc]

/-- **C3.** When the corpus loads to nothing, or no loaded section carries a
(non-empty) embedding, or the query-embedding call failed (empty vector),
`findRelevantSections` returns the empty sequence (it is a total function:
no exception is modelled or needed); and the request then proceeds to the
completion call with only the conversation history after the system message
— the context block is absent (`systemPromptOf "" ""`) and the
retrieved-section header value is the empty string. -/
theorem retrieval_degrades_to_empty (sqrtFn : ℚ → ℚ)
    (cache : Option (List ConstitutionSection))
    (readResult : Except Unit (List ConstitutionSection)) (embedResult : List ℚ)
    (topK : Nat) (messages : List RouteMessage) (c : String)
    (hdeg : (loadConstitutionEmbeddings cache readResult).1 = [] ∨
      (∀ s ∈ (loadConstitutionEmbeddings cache readResult).1,
        s.embedding = none ∨ s.embedding = some []) ∨
      embedResult = [])
    (hmsg : latestMessageContent messages = some c) (hc : c ≠ "") :
    (findRelevantSections sqrtFn cache readResult embedResult topK).1 = [] ∧
    POST sqrtFn true cache readResult embedResult messages =
      .stream ({ role := "system", content := some (systemPromptOf "" "") } :: messages) "" := by
  refine ⟨findRelevantSections_empty_of_degenerate sqrtFn cache readResult embedResult topK hdeg, ?_⟩
  rw [POST_success_eq sqrtFn cache readResult embedResult messages c hmsg hc,
    findRelevantSections_empty_of_degenerate sqrtFn cache readResult embedResult topKDefault hdeg]
  rfl

/-- Witness for `retrieval_degrades_to_empty`: an empty corpus artifact and
a one-message conversation. -/
theorem retrieval_degrades_to_empty_witness :
    ((loadConstitutionEmbeddings none (.ok [])).1 = [] ∨
      (∀ s ∈ (loadConstitutionEmbeddings none (.ok [])).1,
        s.embedding = none ∨ s.embedding = some []) ∨
      ([1] : List ℚ) = []) ∧
    (latestMessageContent [{ role := "user", content := some "hi" }] = some "hi" ∧
      ("hi" : String) ≠ "") ∧
    ((findRelevantSections sqrtDemo none (.ok []) [1] 3).1 = [] ∧
      POST sqrtDemo true none (.ok []) [1] [{ role := "user", content := some "hi" }] =
        .stream
          ({ role := "system", content := some (systemPromptOf "" "") } ::
            [{ role := "user", content := some "hi" }])
          "") :=
  ⟨Or.inl rfl, ⟨rfl, by decide⟩,
    retrieval_degrades_to_empty sqrtDemo none (.ok []) [1] 3
      [{ role := "user", content := some "hi" }] "hi" (Or.inl rfl) rfl (by decide)⟩

/-- **C10.** A request body whose message list is empty or whose last
message has missing or empty content gets the 400 "No message provided"
response, whatever the API-key flag, cache, artifact and embedding inputs
are — i.e. before the API-key check, the retrieval step and the completion
call can influence the outcome. -/
theorem post_invalid_message_400 (sqrtFn : ℚ → ℚ) (apiKeyConfigured : Bool)
    (cache : Option (List ConstitutionSection))
    (readResult : Except Unit (List ConstitutionSection)) (embedResult : List ℚ)
    (messages : List RouteMessage)
    (h : messages = [] ∨
      ∃ m, messages.getLast? = some m ∧ (m.content = none ∨ m.content = some "")) :
    POST sqrtFn apiKeyConfigured cache readResult embedResult messages =
      .json 400 noMessageError := by
  have hl : latestMessageContent messages = none ∨ latestMessageContent messages = some "" := by
    rcases h with rfl | ⟨m, hm, hc | hc⟩
    · exact Or.inl rfl
    · exact Or.inl (by simp [latestMessageContent, hm, hc])
    · exact Or.inr (by simp [latestMessageContent, hm, hc])
  unfold POST
  rcases hl with hl | hl <;> simp [hl]

/-- Witness for `post_invalid_message_400`: the empty message list. -/
theorem post_invalid_message_400_witness :
    (([] : List RouteMessage) = [] ∨
      ∃ m, ([] : List RouteMessage).getLast? = some m ∧
        (m.content = none ∨ m.content = some "")) ∧
    POST sqrtDemo true none (.ok []) [] [] = .json 400 noMessageError :=
  ⟨Or.inl rfl,
    post_invalid_message_400 sqrtDemo true none (.ok []) [] [] (Or.inl rfl)⟩

/-- **C7 (amended).** For every request whose latest message is present and
non-empty, a missing API key yields the immediate 500 configuration error
naming the OpenAI API key, for every cache, artifact and embedding input —
so neither the embedding call nor the completion call can influence the
outcome (neither is made). -/
theorem post_missing_key_500 (sqrtFn : ℚ → ℚ)
    (cache : Option (List ConstitutionSection))
    (readResult : Except Unit (List ConstitutionSection)) (embedResult : List ℚ)
    (messages : List RouteMessage) (c : String)
    (hmsg : latestMessageContent messages = some c) (hc : c ≠ "") :
    POST sqrtFn false cache readResult embedResult messages = .json 500 keyMissingError := by
  unfold POST
  rw [hmsg]
  simp [hc]

/-- Witness for `post_missing_key_500`. -/
theorem post_missing_key_500_witness :
    (latestMessageContent [{ role := "user", content := some "hi" }] = some "hi" ∧
      ("hi" : String) ≠ "") ∧
    POST sqrtDemo false none (.ok []) [1] [{ role := "user", content := some "hi" }] =
      .json 500 keyMissingError :=
  ⟨⟨rfl, by decide⟩,
    post_missing_key_500 sqrtDemo none (.ok []) [1]
      [{ role := "user", content := some "hi" }] "hi" rfl (by decide)⟩

/-- **C7 (counterexample to the claim as stated).** A request with the API
key absent and an empty message list is answered with the 400 "No message
provided" response, which is not the configuration error naming the missing
key: the message validation runs before the API-key check, so "for every
request" fails. -/
theorem post_missing_key_counterexample :
    POST sqrtDemo false none (.error ()) [] [] = .json 400 noMessageError ∧
    PostResult.json 400 noMessageError ≠ PostResult.json 500 keyMissingError := by
  refine ⟨rfl, ?_⟩
  intro h
  have := PostResult.json.injEq 400 noMessageError 500 keyMissingError
  simp at h

theorem findRelevantSections_pairwise_le (sqrtFn : ℚ → ℚ)
    (cache : Option (List ConstitutionSection))
    (readResult : Except Unit (List ConstitutionSection)) (embedResult : List ℚ)
    (topK : Nat) :
    ((findRelevantSections sqrtFn cache readResult embedResult topK).1).Pairwise
      (fun a b => b.similarity ≤ a.similarity) := by
  unfold findRelevantSections
  by_cases h1 : corpusGuard (loadConstitutionEmbeddings cache readResult).1
  · simp [h1]
  · by_cases h2 : embedResult.isEmpty
    · simp [h1, h2]
    · simpa [h1, h2] using
        rank_pairwise_le sqrtFn embedResult (loadConstitutionEmbeddings cache readResult).1 topK

/-- **C5.** On the success path the message list handed to the completion
model is exactly one leading system message — whose content is the fixed
instruction template around the serialized retrieved sections, each
rendered by `renderSection` and joined by the distinct delimiter
`"\n\n---\n\n"` — followed by the client-supplied conversation verbatim
(its latest user turn included exactly as sent, nothing re-added); and the
retrieved sections are in descending similarity order. -/
theorem prompt_builder_messages (sqrtFn : ℚ → ℚ)
    (cache : Option (List ConstitutionSection))
    (readResult : Except Unit (List ConstitutionSection)) (embedResult : List ℚ)
    (messages : List RouteMessage) (c : String)
    (hmsg : latestMessageContent messages = some c) (hc : c ≠ "") :
    POST sqrtFn true cache readResult embedResult messages =
      .stream
        ({ role := "system",
           content := some (systemPromptOf
             (sectionNumbersOf (findRelevantSections sqrtFn cache readResult embedResult topKDefault).1)
             (contextOf (findRelevantSections sqrtFn cache readResult embedResult topKDefault).1)) }
          :: messages)
        (sectionNumbersOf (findRelevantSections sqrtFn cache readResult embedResult topKDefault).1) ∧
    contextOf (findRelevantSections sqrtFn cache readResult embedResult topKDefault).1 =
      joinWith "\n\n---\n\n"
        (((findRelevantSections sqrtFn cache readResult embedResult topKDefault).1).map renderSection) ∧
    ((findRelevantSections sqrtFn cache readResult embedResult topKDefault).1).Pairwise
      (fun a b => b.similarity ≤ a.similarity) :=
  ⟨POST_success_eq sqrtFn cache readResult embedResult messages c hmsg hc, rfl,
    findRelevantSections_pairwise_le sqrtFn cache readResult embedResult topKDefault⟩

/-- Witness for `prompt_builder_messages`. -/
theorem prompt_builder_messages_witness :
    (latestMessageContent [{ role := "user", content := some "hi" }] = some "hi" ∧
      ("hi" : String) ≠ "") ∧
    (POST sqrtDemo true none (.ok []) [1] [{ role := "user", content := some "hi" }] =
      .stream
        ({ role := "system",
           content := some (systemPromptOf
             (sectionNumbersOf (findRelevantSections sqrtDemo none (.ok []) [1] topKDefault).1)
             (contextOf (findRelevantSections sqrtDemo none (.ok []) [1] topKDefault).1)) }
          :: [{ role := "user", content := some "hi" }])
        (sectionNumbersOf (findRelevantSections sqrtDemo none (.ok []) [1] topKDefault).1) ∧
    contextOf (findRelevantSections sqrtDemo none (.ok []) [1] topKDefault).1 =
      joinWith "\n\n---\n\n"
        (((findRelevantSections sqrtDemo none (.ok []) [1] topKDefault).1).map renderSection) ∧
    ((findRelevantSections sqrtDemo none (.ok []) [1] topKDefault).1).Pairwise
      (fun a b => b.similarity ≤ a.similarity)) :=
  ⟨⟨rfl, by decide⟩,
    prompt_builder_messages sqrtDemo none (.ok []) [1]
      [{ role := "user", content := some "hi" }] "hi" rfl (by decide)⟩

theorem toList_append (s t : String) : (s ++ t).toList = s.toList ++ t.toList := by
  simp [String.toList]

theorem joinWith_chars (sep : String) (parts : List String) :
    ∀ ch ∈ (joinWith sep parts).toList,
      ch ∈ sep.toList ∨ ∃ p ∈ parts, ch ∈ p.toList := by
  induction parts with
  | nil => simp [joinWith]
  | cons x xs ih =>
    cases xs with
    | nil =>
      intro ch hch
      exact Or.inr ⟨x, by simp, by simpa [joinWith] using hch⟩
    | cons y ys =>
      intro ch hch
      have hx : joinWith sep (x :: y :: ys) = x ++ sep ++ joinWith sep (y :: ys) := rfl
      rw [hx, toList_append, toList_append] at hch
      rcases List.mem_append.mp hch with h1 | h2
      · rcases List.mem_append.mp h1 with hx1 | hsep
        · exact Or.inr ⟨x, List.mem_cons_self x (y :: ys), hx1⟩
        · exact Or.inl hsep
      · rcases ih ch h2 with hsep | ⟨p, hp, hchp⟩
        · exact Or.inl hsep
        · exact Or.inr ⟨p, List.mem_cons_of_mem x hp, hchp⟩

theorem sanitizeASCII_chars (s : String) :
    ∀ ch ∈ (sanitizeASCII s).toList, ch.toNat ≤ 127 := by
  intro ch hch
  have hm : ch ∈ s.toList.filter (fun c => decide (c.toNat ≤ 127)) := hch
  exact of_decide_eq_true (List.mem_filter.mp hm).2

theorem sectionNumbersOf_chars (sections : List ScoredSection) :
    ∀ ch ∈ (sectionNumbersOf sections).toList, ch.toNat ≤ 127 := by
  intro ch hch
  rcases joinWith_chars ", " _ ch hch with hsep | ⟨p, hp, hchp⟩
  · have : ch = ',' ∨ ch = ' ' := by simpa using hsep
    rcases this with rfl | rfl <;> decide
  · rcases List.mem_map.mp hp with ⟨o, _, rfl⟩
    exact sanitizeASCII_chars _ ch hchp

/-- **C6.** Every character of the comma-joined retrieved-section header
value is ASCII (code point at most 127), for every list of retrieved
sections whatever their labels contain; and in particular the label
`"§51"` sanitizes to `"51"`. -/
theorem header_value_ascii (sections : List ScoredSection) :
    ((sectionNumbersOf sections).toList.all (fun ch => decide (ch.toNat ≤ 127))) = true ∧
    sanitizeASCII "§51" = "51" :=
  ⟨List.all_eq_true.mpr (fun ch hch => decide_eq_true (sectionNumbersOf_chars sections ch hch)),
    by decide⟩

theorem filter_ne_of_fresh (msgs : List ClientMessage) (pid : String)
    (h : ∀ m ∈ msgs, m.id ≠ pid) :
    msgs.filter (fun m => m.id != pid) = msgs := by
  rw [List.filter_eq_self]
  intro m hm
  simpa using h m hm

theorem map_update_of_fresh (msgs : List ClientMessage) (pid newContent : String)
    (h : ∀ m ∈ msgs, m.id ≠ pid) :
    msgs.map (fun m => if m.id = pid then { m with content := newContent } else m) = msgs := by
  induction msgs with
  | nil => rfl
  | cons m ms ih =>
    simp only [List.map_cons, if_neg (h m (List.mem_cons_self m ms)),
      ih (fun x hx => h x (List.mem_cons_of_mem m hx))]

theorem abort_restores (chats1 : List Chat) (targetChatId pendingId partialContent : String)
    (hfresh : ∀ chat ∈ chats1, ∀ m ∈ chat.messages, m.id ≠ pendingId) :
    removePendingAssistant
      (updateAssistantContent (addPlaceholder chats1 targetChatId pendingId)
        targetChatId pendingId partialContent)
      targetChatId pendingId = chats1 := by
  induction chats1 with
  | nil => rfl
  | cons chat chats ih =>
    have hch : ∀ m ∈ chat.messages, m.id ≠ pendingId :=
      hfresh chat (List.mem_cons_self chat chats)
    have hrest := ih (fun c hc => hfresh c (List.mem_cons_of_mem chat hc))
    simp only [addPlaceholder, updateAssistantContent, removePendingAssistant,
      List.map_cons] at hrest ⊢
    rw [List.cons.injEq]
    refine ⟨?_, hrest⟩
    obtain ⟨cid, ctitle, cmsgs⟩ := chat
    simp only at hch
    by_cases hid : cid = targetChatId
    · subst hid
      simp [map_update_of_fresh cmsgs pendingId partialContent hch,
        filter_ne_of_fresh cmsgs pendingId hch]
    · simp [hid]

theorem appendUserMessage_fresh (chats0 : List Chat) (targetChatId : String)
    (userMessage : ClientMessage) (text pendingId : String)
    (hfresh : ∀ chat ∈ chats0, ∀ m ∈ chat.messages, m.id ≠ pendingId)
    (huser : userMessage.id ≠ pendingId) :
    ∀ chat ∈ appendUserMessage chats0 targetChatId userMessage text,
      ∀ m ∈ chat.messages, m.id ≠ pendingId := by
  intro chat hchat m hm
  rcases List.mem_map.mp hchat with ⟨c0, hc0, rfl⟩
  by_cases hid : c0.id = targetChatId
  · simp only [hid, if_pos rfl] at hm
    rcases List.mem_append.mp hm with hm0 | hm1
    · exact hfresh c0 hc0 m hm0
    · rcases List.mem_singleton.mp hm1 with rfl
      exact huser
  · simp only [if_neg hid] at hm
    exact hfresh c0 hc0 m hm

/-- **C4.** Aborting a streamed response discards the in-progress assistant
message entirely: starting from the persisted history holding the just-sent
user message, adding the placeholder, applying however many stream lines
arrived before the abort and then running the abort handler returns exactly
the pre-stream history — the user message is preserved and no (partial)
assistant message remains, as though the assistant turn never happened.
Moreover the text accumulated by abort time depends only on the lines
delivered before the cut: any lines after the abort contribute nothing. -/
theorem abort_discards_pending_assistant (decodeJSONString : String → Option String)
    (chats0 : List Chat) (targetChatId pendingId text : String)
    (userMessage : ClientMessage) (lines extra : List String) (k : Nat)
    (hfresh : ∀ chat ∈ chats0, ∀ m ∈ chat.messages, m.id ≠ pendingId)
    (huser : userMessage.id ≠ pendingId) (hk : k ≤ lines.length) :
    runAborted decodeJSONString (appendUserMessage chats0 targetChatId userMessage text)
        targetChatId pendingId lines k =
      appendUserMessage chats0 targetChatId userMessage text ∧
    fullResponseAfter decodeJSONString ((lines ++ extra).take k) =
      fullResponseAfter decodeJSONString (lines.take k) := by
  constructor
  · exact abort_restores _ targetChatId pendingId _
      (appendUserMessage_fresh chats0 targetChatId userMessage text pendingId hfresh huser)
  · rw [List.take_append_of_le_length hk]

/-- Witness for `abort_discards_pending_assistant`: a one-chat history, one
delivered line, one line after the abort. -/
theorem abort_discards_pending_assistant_witness :
    ((∀ chat ∈ [Chat.mk "c1" "t" [ClientMessage.mk "u0" "hello" "user"]],
        ∀ m ∈ chat.messages, m.id ≠ "a1") ∧
      (ClientMessage.mk "u1" "hi" "user").id ≠ "a1" ∧ 1 ≤ (["0:x"] : List String).length) ∧
    (runAborted (fun s => some s)
        (appendUserMessage [Chat.mk "c1" "t" [ClientMessage.mk "u0" "hello" "user"]]
          "c1" (ClientMessage.mk "u1" "hi" "user") "hi")
        "c1" "a1" ["0:x"] 1 =
      appendUserMessage [Chat.mk "c1" "t" [ClientMessage.mk "u0" "hello" "user"]]
        "c1" (ClientMessage.mk "u1" "hi" "user") "hi" ∧
    fullResponseAfter (fun s => some s) ((["0:x"] ++ ["0:y"]).take 1) =
      fullResponseAfter (fun s => some s) ((["0:x"] : List String).take 1)) :=
  ⟨⟨by decide, by decide, by decide⟩,
    abort_discards_pending_assistant (fun s => some s)
      [Chat.mk "c1" "t" [ClientMessage.mk "u0" "hello" "user"]]
      "c1" "a1" "hi" (ClientMessage.mk "u1" "hi" "user") ["0:x"] ["0:y"] 1
      (by decide) (by decide) (by decide)⟩
